import Mathlib

/-!
Shallow embedding of the GabLira presence/penalty coordination engine.

The definitions below are translated from the TypeScript source:
  * `isInPenaltyPeriod`, `addPenalty`, `pingServer` — the monitoring hook
    (useMonitoringSystem);
  * `reducePenalty` — the penalty-reduction handler of the main screen;
  * `cacheGet` / `cacheSet` — the TTL cache hook (useCache);
  * `initializeUser` — the session manager hook (useUserManager).

Supabase query results are modelled as a `data`/`error` pair (`SB`); the
`.single()` combinator yields the row when the filter matches exactly one
record and the "PGRST116" no-rows error otherwise.  Remote failures are
injected through explicit error schedules so that every error-handling path
of the source is reachable in the model.  JavaScript exceptions are modelled
by the `TS` outcome type: a `throw` inside a `try` block produces
`TS.thrown`, carrying the store state at the moment of the throw (a catch
does not roll back completed writes).
-/

namespace GabLira

/-- A supabase-js query result: returned row (if any) and error code (if any). -/
structure SB (α : Type) where
  data : Option α
  error : Option String
  deriving Repr, DecidableEq

/-- `.single()` over the rows matching a filter: exactly one row succeeds,
otherwise the PGRST116 "no rows" error is returned with null data. -/
def selectSingle {α : Type} (l : List α) : SB α :=
  match l with
  | [p] => ⟨some p, none⟩
  | _ => ⟨none, some "PGRST116"⟩

/-- Outcome of a block of JS code: normal return, or an exception carrying
the mutable state reached at the throw site. -/
inductive TS (σ α : Type) where
  | ret : α → TS σ α
  | thrown : String → σ → TS σ α
  deriving Repr, DecidableEq

/-- Whether the block ended in an (uncaught) exception. -/
def TS.isThrown {σ α : Type} : TS σ α → Bool
  | .ret _ => false
  | .thrown _ _ => true

/-- A row of the `users` table (a Participant). -/
structure User where
  id : Nat
  device_name : String
  penalty_count : Int
  is_online : Bool
  last_seen : Nat
  updated_at : Nat
  deriving Repr, DecidableEq

/-- A row of the `penalties` table.  `removed_by = none` means the penalty
is still active. -/
structure Penalty where
  id : Nat
  user_id : Nat
  penalty_date : Nat
  removed_by : Option Nat
  removed_at : Option Nat
  created_at : Nat
  deriving Repr, DecidableEq

/-- A row of the `user_activity` table (an ActivityPing). -/
structure Ping where
  user_id : Nat
  ping_timestamp : Nat
  response_time : Nat
  is_online : Bool
  deriving Repr, DecidableEq

/-- The remote store: the three tables the monitoring engine touches, plus
sequence counters for server-generated identifiers. -/
structure Store where
  users : List User
  penalties : List Penalty
  pings : List Ping
  userSeq : Nat
  penaltySeq : Nat
  deriving Repr, DecidableEq

/-! ## Penalty window state machine (isInPenaltyPeriod) -/

/-- `isInPenaltyPeriod` from useMonitoringSystem: quiet hours hold when the
minute-of-day is ≥ 22:30 (1350) or ≤ 05:30 (330). -/
def isInPenaltyPeriod (hour minute : Nat) : Bool :=
  let currentTime := hour * 60 + minute
  let penaltyStart := 22 * 60 + 30
  let penaltyEnd := 5 * 60 + 30
  decide (penaltyStart ≤ currentTime) || decide (currentTime ≤ penaltyEnd)

/-! ## TTL cache (useCache) -/

/-- A cache entry: value, write timestamp (ms), time-to-live (ms). -/
structure CacheItem (α : Type) where
  data : α
  timestamp : Nat
  ttl : Nat
  deriving Repr, DecidableEq

/-- The cache object: an association of string keys to entries. -/
abbrev Cache (α : Type) : Type := List (String × CacheItem α)

/-- Raw key lookup (no expiry logic). -/
def cacheLookup {α : Type} (c : Cache α) (k : String) : Option (CacheItem α) :=
  match List.find? (fun e => e.1 == k) c with
  | some e => some e.2
  | none => none

/-- `get` of useCache: a missing key is a miss; an entry whose age strictly
exceeds its ttl is deleted (lazy eviction) and reported as a miss. -/
def cacheGet {α : Type} (now : Nat) (k : String) (c : Cache α) :
    Option α × Cache α :=
  match cacheLookup c k with
  | none => (none, c)
  | some item =>
    if item.ttl < now - item.timestamp then
      (none, List.filter (fun e => !(e.1 == k)) c)
    else
      (some item.data, c)

/-- `set` of useCache: unconditionally overwrite the entry for the key with
a fresh timestamp. -/
def cacheSet {α : Type} (now : Nat) (k : String) (v : α) (ttl : Nat)
    (c : Cache α) : Cache α :=
  (k, ⟨v, now, ttl⟩) :: List.filter (fun e => !(e.1 == k)) c

/-! ## Penalty application (addPenalty) -/

/-- The filter of the existence check in addPenalty: an active penalty of
the user for today (`removed_by` is null). -/
def activeFor (uid today : Nat) (p : Penalty) : Bool :=
  p.user_id == uid && p.penalty_date == today && p.removed_by == none

/-- Injectable store failures for one addPenalty call: error returned by the
existence select, by the penalty insert, and by the counter update. -/
structure APSched where
  checkErr : Option String
  insertErr : Option String
  updateErr : Option String
  deriving Repr, DecidableEq

/-- The error-free schedule. -/
def noAPErr : APSched := ⟨none, none, none⟩

/-- The penalty insert of addPenalty: appends a new active record for
(user, today) with a server-generated identifier. -/
def insertPenalty (uid today now : Nat) (s : Store) : Store :=
  { s with
    penalties := s.penalties ++ [⟨s.penaltySeq, uid, today, none, none, now⟩],
    penaltySeq := s.penaltySeq + 1 }

/-- The counter update of addPenalty: an absolute write of `c` into
`penalty_count` of every user row whose id matches. -/
def setUserCount (uid : Nat) (c : Int) (s : Store) : Store :=
  { s with
    users := List.map
      (fun w => if w.id == uid then { w with penalty_count := c } else w)
      s.users }

/-- The try block of addPenalty.  Returns the store and whether the
onPenaltyAdded callback fired; a throw carries the store reached so far. -/
def addPenaltyTry (u : User) (today now : Nat) (sched : APSched) (s : Store) :
    TS Store (Store × Bool) :=
  let check : SB Penalty :=
    match sched.checkErr with
    | some code => ⟨none, some code⟩
    | none => selectSingle (List.filter (activeFor u.id today) s.penalties)
  let throwCheck : Bool :=
    match check.error with
    | some code => code != "PGRST116"
    | none => false
  if throwCheck then
    .thrown ((check.error).getD "") s
  else
    match check.data with
    | some _ => .ret (s, false)
    | none =>
      match sched.insertErr with
      | some code => .thrown code s
      | none =>
        let s1 := insertPenalty u.id today now s
        match sched.updateErr with
        | some code => .thrown code s1
        | none =>
          let s2 := setUserCount u.id (u.penalty_count + 1) s1
          .ret (s2, true)

/-- Observable result of one addPenalty call: final store, number of store
select queries issued, whether onPenaltyAdded fired, whether the catch
logged an error. -/
structure APResult where
  store : Store
  reads : Nat
  callback : Bool
  logged : Bool
  deriving Repr, DecidableEq

/-- addPenalty from useMonitoringSystem, as the outcome of the whole JS
function: guards first, then the try block with its catch-all handler. -/
def addPenaltyTS (cu : Option User) (mounted : Bool)
    (hour minute today now : Nat) (sched : APSched) (s : Store) :
    TS Store APResult :=
  match cu with
  | none => .ret ⟨s, 0, false, false⟩
  | some u =>
    if !(isInPenaltyPeriod hour minute) || !mounted then
      .ret ⟨s, 0, false, false⟩
    else
      match addPenaltyTry u today now sched s with
      | .ret (s1, cb) => .ret ⟨s1, 1, cb && mounted, false⟩
      | .thrown _ s1 => .ret ⟨s1, 1, false, true⟩

/-- The value addPenalty returns to its caller (it never throws, see the
error-handling theorem). -/
def addPenaltyRes (cu : Option User) (mounted : Bool)
    (hour minute today now : Nat) (sched : APSched) (s : Store) : APResult :=
  match addPenaltyTS cu mounted hour minute today now sched s with
  | .ret r => r
  | .thrown _ s1 => ⟨s1, 0, false, false⟩

/-! ## Presence probe (pingServer) -/

/-- Environment of one probe tick: whether NetInfo.fetch rejects, the two
reachability flags it reports, an injected error on the existence select,
the measured round-trip latency, and errors returned (and ignored by the
source) by the activity insert and the status update.  `ap` schedules the
nested addPenalty call. -/
structure ProbeSched where
  netThrow : Option String
  isConnected : Bool
  isInternetReachable : Bool
  readErr : Option String
  responseTime : Nat
  pingInsertErr : Option String
  statusErr : Option String
  ap : APSched
  deriving Repr, DecidableEq

/-- The lightweight existence read of pingServer: select the user row by id,
`.single()`. -/
def selectUserById (uid : Nat) (inj : Option String) (s : Store) : SB User :=
  match inj with
  | some code => ⟨none, some code⟩
  | none => selectSingle (List.filter (fun w => w.id == uid) s.users)

/-- The activity insert of pingServer.  The source does not inspect the
result, so a failed insert leaves the store unchanged and is ignored. -/
def insertPing (uid now rt : Nat) (online : Bool) (err : Option String)
    (s : Store) : Store :=
  match err with
  | some _ => s
  | none => { s with pings := s.pings ++ [⟨uid, now, rt, online⟩] }

/-- The status update of pingServer: set `is_online` and `last_seen` of the
user row.  The source does not inspect the result, so a failure is
ignored. -/
def updateStatus (uid : Nat) (online : Bool) (now : Nat) (err : Option String)
    (s : Store) : Store :=
  match err with
  | some _ => s
  | none =>
    { s with
      users := List.map
        (fun w => if w.id == uid then
            { w with is_online := online, last_seen := now }
          else w)
        s.users }

/-- The try block of pingServer: reachability check, existence read,
selective activity insert, unconditional status write, then the nested
penalty check.  Returns the store and whether onPenaltyAdded fired. -/
def pingTry (u : User) (hour minute today now : Nat) (sched : ProbeSched)
    (s : Store) : TS Store (Store × Bool) :=
  match sched.netThrow with
  | some code => .thrown code s
  | none =>
    let isConnected := sched.isConnected && sched.isInternetReachable
    if isConnected then
      let read := selectUserById u.id sched.readErr s
      let rt := sched.responseTime
      let hasError := (read.error).isSome
      let s1 :=
        if hasError || decide (1000 < rt) then
          insertPing u.id now rt (!hasError) sched.pingInsertErr s
        else s
      let s2 := updateStatus u.id (!hasError) now sched.statusErr s1
      if !hasError && isInPenaltyPeriod hour minute then
        let ap := addPenaltyRes (some u) true hour minute today now sched.ap s2
        .ret (ap.store, ap.callback)
      else
        .ret (s2, false)
    else
      .ret (updateStatus u.id false now sched.statusErr s, false)

/-- Observable result of one probe tick: final store, the updated
last-ping timestamp, whether the catch logged, whether onPenaltyAdded
fired. -/
structure ProbeResult where
  store : Store
  lastPing : Nat
  logged : Bool
  callback : Bool
  deriving Repr, DecidableEq

/-- pingServer from useMonitoringSystem, as the outcome of the whole JS
function: guards and debounce first, then the try block with its catch-all
handler. -/
def pingServerTS (cu : Option User) (mounted : Bool) (lastPing : Nat)
    (hour minute today now : Nat) (sched : ProbeSched) (s : Store) :
    TS Store ProbeResult :=
  match cu with
  | none => .ret ⟨s, lastPing, false, false⟩
  | some u =>
    if !mounted then .ret ⟨s, lastPing, false, false⟩
    else if now - lastPing < 15000 then .ret ⟨s, lastPing, false, false⟩
    else
      match pingTry u hour minute today now sched s with
      | .ret (s1, cb) => .ret ⟨s1, now, false, cb⟩
      | .thrown _ s1 => .ret ⟨s1, now, true, false⟩

/-- The value pingServer returns to its caller (it never throws, see the
error-handling theorem). -/
def pingServerRes (cu : Option User) (mounted : Bool) (lastPing : Nat)
    (hour minute today now : Nat) (sched : ProbeSched) (s : Store) :
    ProbeResult :=
  match pingServerTS cu mounted lastPing hour minute today now sched s with
  | .ret r => r
  | .thrown _ s1 => ⟨s1, lastPing, false, false⟩

/-! ## Penalty reduction (reducePenalty, main screen) -/

/-- The filter of the reduction query: any unreduced penalty of the user
(no date restriction). -/
def unreducedFor (uid : Nat) (p : Penalty) : Bool :=
  p.user_id == uid && p.removed_by == none

/-- `.order(created_at, descending).limit(1)` over a row list: the row with
the greatest creation timestamp (the earlier row wins a tie). -/
def pickLatest : List Penalty → Option Penalty
  | [] => none
  | p :: ps =>
    match pickLatest ps with
    | none => some p
    | some q => if p.created_at < q.created_at then some q else some p

/-- Injectable store failures for one reducePenalty call. -/
structure RPSched where
  findErr : Option String
  updPenErr : Option String
  updUserErr : Option String
  deriving Repr, DecidableEq

/-- The error-free schedule. -/
def noRPErr : RPSched := ⟨none, none, none⟩

/-- Observable result of one reducePenalty call: final store, the penalty
row the query selected (none when no query ran or no row matched), the
number of select queries issued, and whether the catch logged. -/
structure RPResult where
  store : Store
  selected : Option Penalty
  reads : Nat
  logged : Bool
  deriving Repr, DecidableEq

/-- The try block of the confirmed reduction: find the most recent
unreduced penalty, mark it removed, then write `max 0 (count - 1)` into the
user row. -/
def reduceTry (c target : User) (now : Nat) (sched : RPSched) (s : Store) :
    TS Store (Store × Option Penalty) :=
  let find : SB Penalty :=
    match sched.findErr with
    | some code => ⟨none, some code⟩
    | none =>
      match pickLatest (List.filter (unreducedFor target.id) s.penalties) with
      | some p => ⟨some p, none⟩
      | none => ⟨none, some "PGRST116"⟩
  let throwFind : Bool :=
    match find.error with
    | some code => code != "PGRST116"
    | none => false
  if throwFind then
    .thrown ((find.error).getD "") s
  else
    match find.data with
    | none => .ret (s, none)
    | some p =>
      match sched.updPenErr with
      | some code => .thrown code s
      | none =>
        let s1 :=
          { s with
            penalties := List.map
              (fun q => if q.id == p.id then
                  { q with removed_by := some c.id, removed_at := some now }
                else q)
              s.penalties }
        match sched.updUserErr with
        | some code => .thrown code s1
        | none =>
          let s2 :=
            { s1 with
              users := List.map
                (fun w => if w.id == target.id then
                    { w with
                      penalty_count := max 0 (target.penalty_count - 1),
                      updated_at := now }
                  else w)
                s1.users }
          .ret (s2, some p)

/-- reducePenalty from the main screen, with the confirmation dialog
accepted: guard on no current user, early return when the tapped user's
counter is zero, then the try block with its catch-all handler. -/
def reducePenalty (cu : Option User) (target : User) (now : Nat)
    (sched : RPSched) (s : Store) : RPResult :=
  match cu with
  | none => ⟨s, none, 0, false⟩
  | some c =>
    if target.penalty_count == 0 then ⟨s, none, 0, false⟩
    else
      match reduceTry c target now sched s with
      | .ret (s1, sel) => ⟨s1, sel, 1, false⟩
      | .thrown _ s1 => ⟨s1, none, 1, true⟩

/-! ## Session initialisation (initializeUser, useUserManager) -/

/-- Injectable store failures for one initializeUser call. -/
structure InitSched where
  fetchErr : Option String
  updErr : Option String
  insErr : Option String
  deriving Repr, DecidableEq

/-- The error-free schedule. -/
def noInitErr : InitSched := ⟨none, none, none⟩

/-- Observable result of one initializeUser call: final store and cache,
the resolved current user, the number of store select queries issued, and
whether the catch logged. -/
structure InitResult where
  store : Store
  cache : Cache User
  currentUser : Option User
  reads : Nat
  logged : Bool

/-- The try block of initializeUser after a cache miss: fetch the user row
by device name; if found, refresh `last_seen`/`is_online` and cache the
updated row for two minutes; if not found, insert a fresh row (schema
defaults give `penalty_count = 0`) and cache it for two minutes. -/
def initTry (dn key : String) (now : Nat) (sched : InitSched)
    (c : Cache User) (s : Store) :
    TS (Store × Cache User) (Store × Cache User × User) :=
  let fetch : SB User :=
    match sched.fetchErr with
    | some code => ⟨none, some code⟩
    | none => selectSingle (List.filter (fun w => w.device_name == dn) s.users)
  let throwFetch : Bool :=
    match fetch.error with
    | some code => code != "PGRST116"
    | none => false
  if throwFetch then
    .thrown ((fetch.error).getD "") (s, c)
  else
    match fetch.data with
    | some ex =>
      match sched.updErr with
      | some code => .thrown code (s, c)
      | none =>
        let upd := { ex with last_seen := now, is_online := true }
        let s1 :=
          { s with
            users := List.map
              (fun w => if w.id == ex.id then
                  { w with last_seen := now, is_online := true }
                else w)
              s.users }
        .ret (s1, cacheSet now key upd 120000 c, upd)
    | none =>
      match sched.insErr with
      | some code => .thrown code (s, c)
      | none =>
        let newU : User := ⟨s.userSeq, dn, 0, true, now, now⟩
        let s1 := { s with users := s.users ++ [newU], userSeq := s.userSeq + 1 }
        .ret (s1, cacheSet now key newU 120000 c, newU)

/-- initializeUser from useUserManager: guard on the device-name sentinel,
consult the cache first (a hit performs no store read), otherwise run the
fetch-or-create block under its catch-all handler. -/
def initializeUser (deviceName : String) (now : Nat) (sched : InitSched)
    (c : Cache User) (s : Store) (prev : Option User) : InitResult :=
  if deviceName == "" || deviceName == "Unknown Device" then
    ⟨s, c, prev, 0, false⟩
  else
    let key := "user_" ++ deviceName
    match cacheGet now key c with
    | (some cu, c1) => ⟨s, c1, some cu, 0, false⟩
    | (none, c1) =>
      match initTry deviceName key now sched c1 s with
      | .ret (s1, c2, newU) => ⟨s1, c2, some newU, 1, false⟩
      | .thrown _ (s1, c2) => ⟨s1, c2, prev, 1, true⟩

/-- Sequential iteration of addPenalty: each call completes (its store
writes land) before the next one starts. -/
def addPenaltyN (u : User) (hour minute today now : Nat) :
    Nat → Store → Store
  | 0, s => s
  | n + 1, s =>
    addPenaltyN u hour minute today now n
      (addPenaltyRes (some u) true hour minute today now noAPErr s).store

/-! ## Theorems -/

/-- In the window, with no active record for (participant, today), one
error-free addPenalty call inserts the record and writes snapshot+1 into
the counter. -/
theorem addPenalty_fresh (u : User) (hour minute today now : Nat) (s : Store)
    (hwin : isInPenaltyPeriod hour minute = true)
    (hempty : List.filter (activeFor u.id today) s.penalties = []) :
    addPenaltyRes (some u) true hour minute today now noAPErr s =
      ⟨setUserCount u.id (u.penalty_count + 1) (insertPenalty u.id today now s),
       1, true, false⟩ := by
  simp [addPenaltyRes, addPenaltyTS, hwin, addPenaltyTry, noAPErr, hempty,
    selectSingle]

/-- In the window, when the existence check finds exactly one active record
for (participant, today), addPenalty is a no-op on the store. -/
theorem addPenalty_existing (u : User) (hour minute today now : Nat)
    (sched : APSched) (s : Store) (p : Penalty)
    (hwin : isInPenaltyPeriod hour minute = true)
    (hchk : sched.checkErr = none)
    (hone : List.filter (activeFor u.id today) s.penalties = [p]) :
    addPenaltyRes (some u) true hour minute today now sched s =
      ⟨s, 1, false, false⟩ := by
  simp [addPenaltyRes, addPenaltyTS, hwin, addPenaltyTry, hchk, hone,
    selectSingle]

/-- After a fresh insert the active-for-today filter returns exactly the
new record. -/
theorem filter_after_fresh (u : User) (today now : Nat) (s : Store)
    (cnt : Int)
    (hempty : List.filter (activeFor u.id today) s.penalties = []) :
    List.filter (activeFor u.id today)
        (setUserCount u.id cnt (insertPenalty u.id today now s)).penalties =
      [⟨s.penaltySeq, u.id, today, none, none, now⟩] := by
  simp [setUserCount, insertPenalty, List.filter_append, hempty, activeFor]

/-- As long as exactly one active record for (participant, today) is in the
store, any number of further error-free addPenalty calls leave the store
unchanged. -/
theorem addPenaltyN_fixed (u : User) (hour minute today now : Nat)
    (n : Nat) (s : Store) (p : Penalty)
    (hwin : isInPenaltyPeriod hour minute = true)
    (hone : List.filter (activeFor u.id today) s.penalties = [p]) :
    addPenaltyN u hour minute today now n s = s := by
  induction n with
  | zero => rfl
  | succ k ih =>
    simp only [addPenaltyN]
    rw [addPenalty_existing u hour minute today now noAPErr s p hwin rfl hone]
    exact ih

/-- C10: the counter write of Penalty Application is an absolute write of
the in-memory snapshot's count plus one: whatever count the store currently
holds for the participant's row, after the insert the row carries exactly
snapshot+1. -/
theorem addPenalty_absolute_count (u : User) (hour minute today now : Nat)
    (s : Store)
    (hwin : isInPenaltyPeriod hour minute = true)
    (hempty : List.filter (activeFor u.id today) s.penalties = []) :
    (addPenaltyRes (some u) true hour minute today now noAPErr s).store.users =
      List.map (fun w => if w.id == u.id then
          { w with penalty_count := u.penalty_count + 1 } else w) s.users := by
  rw [addPenalty_fresh u hour minute today now s hwin hempty]
  simp [setUserCount, insertPenalty]

theorem addPenalty_absolute_count_witness :
    (isInPenaltyPeriod 23 0 = true
      ∧ List.filter (activeFor 1 100)
          (⟨[⟨1, "DeviceA", 99, true, 0, 0⟩], [], [], 5, 10⟩ : Store).penalties = [])
    ∧ (addPenaltyRes (some ⟨1, "DeviceA", 2, true, 0, 0⟩) true 23 0 100 500
          noAPErr ⟨[⟨1, "DeviceA", 99, true, 0, 0⟩], [], [], 5, 10⟩).store.users =
        List.map (fun w => if w.id == (1 : Nat) then
            { w with penalty_count := (2 : Int) + 1 } else w)
          [⟨1, "DeviceA", 99, true, 0, 0⟩] :=
  ⟨⟨by decide, by decide⟩,
   addPenalty_absolute_count ⟨1, "DeviceA", 2, true, 0, 0⟩ 23 0 100 500
     ⟨[⟨1, "DeviceA", 99, true, 0, 0⟩], [], [], 5, 10⟩ (by decide) (by decide)⟩

/-- C1: starting from no active record for (participant, today), N
sequential error-free addPenalty calls (N ≥ 1) leave exactly one active
record for (participant, today) and the participant's counter at
snapshot+1; and whenever exactly one active record for today already
exists, a call is a no-op on the store. -/
theorem addPenalty_idempotent (u : User) (hour minute today now : Nat)
    (n : Nat) (s : Store)
    (hwin : isInPenaltyPeriod hour minute = true)
    (hempty : List.filter (activeFor u.id today) s.penalties = [])
    (hn : 1 ≤ n) :
    (List.filter (activeFor u.id today)
        (addPenaltyN u hour minute today now n s).penalties).length = 1
    ∧ (∀ w ∈ (addPenaltyN u hour minute today now n s).users,
        w.id = u.id → w.penalty_count = u.penalty_count + 1)
    ∧ (∀ (s1 : Store) (p : Penalty),
        List.filter (activeFor u.id today) s1.penalties = [p] →
        (addPenaltyRes (some u) true hour minute today now noAPErr s1).store =
          s1) := by
  obtain ⟨k, rfl⟩ : ∃ k, n = k + 1 := ⟨n - 1, by omega⟩
  have hstep : addPenaltyN u hour minute today now (k + 1) s =
      addPenaltyN u hour minute today now k
        (setUserCount u.id (u.penalty_count + 1)
          (insertPenalty u.id today now s)) := by
    simp only [addPenaltyN]
    rw [addPenalty_fresh u hour minute today now s hwin hempty]
  have hfil := filter_after_fresh u today now s (u.penalty_count + 1) hempty
  have hfix := addPenaltyN_fixed u hour minute today now k
    (setUserCount u.id (u.penalty_count + 1) (insertPenalty u.id today now s))
    ⟨s.penaltySeq, u.id, today, none, none, now⟩ hwin hfil
  rw [hstep, hfix]
  refine ⟨by rw [hfil]; rfl, ?_, ?_⟩
  · intro w hw hid
    have husers : (setUserCount u.id (u.penalty_count + 1)
        (insertPenalty u.id today now s)).users =
        List.map (fun w0 => if w0.id == u.id then
            { w0 with penalty_count := u.penalty_count + 1 } else w0) s.users := by
      simp [setUserCount, insertPenalty]
    rw [husers] at hw
    obtain ⟨w0, hw0, rfl⟩ := List.mem_map.mp hw
    by_cases h0 : (w0.id == u.id) = true
    · simp [h0]
    · exfalso
      rw [if_neg h0] at hid
      exact h0 (by simpa using hid)
  · intro s1 p hone
    rw [addPenalty_existing u hour minute today now noAPErr s1 p hwin rfl hone]

theorem addPenalty_idempotent_witness :
    (isInPenaltyPeriod 23 0 = true
      ∧ List.filter (activeFor 1 100)
          (⟨[⟨1, "DeviceA", 2, true, 0, 0⟩], [], [], 5, 10⟩ : Store).penalties = []
      ∧ 1 ≤ 3)
    ∧ ((List.filter (activeFor 1 100)
          (addPenaltyN ⟨1, "DeviceA", 2, true, 0, 0⟩ 23 0 100 500 3
            ⟨[⟨1, "DeviceA", 2, true, 0, 0⟩], [], [], 5, 10⟩).penalties).length = 1
      ∧ (∀ w ∈ (addPenaltyN ⟨1, "DeviceA", 2, true, 0, 0⟩ 23 0 100 500 3
            ⟨[⟨1, "DeviceA", 2, true, 0, 0⟩], [], [], 5, 10⟩).users,
          w.id = 1 → w.penalty_count = (2 : Int) + 1)
      ∧ (∀ (s1 : Store) (p : Penalty),
          List.filter (activeFor 1 100) s1.penalties = [p] →
          (addPenaltyRes (some ⟨1, "DeviceA", 2, true, 0, 0⟩) true 23 0 100 500
            noAPErr s1).store = s1)) :=
  ⟨⟨by decide, by decide, by decide⟩,
   addPenalty_idempotent ⟨1, "DeviceA", 2, true, 0, 0⟩ 23 0 100 500 3
     ⟨[⟨1, "DeviceA", 2, true, 0, 0⟩], [], [], 5, 10⟩ (by decide) (by decide)
     (by decide)⟩

/-- C2: for every minute-of-day m = hour*60+minute, isInPenaltyPeriod holds
iff m ≥ 1350 or m ≤ 330; 22:30 and 05:30 are inside the window, 22:29 and
05:31 are outside. -/
theorem isInPenaltyPeriod_spec :
    (∀ hour minute : Nat,
      isInPenaltyPeriod hour minute = true ↔
        1350 ≤ hour * 60 + minute ∨ hour * 60 + minute ≤ 330)
    ∧ isInPenaltyPeriod 22 30 = true
    ∧ isInPenaltyPeriod 5 30 = true
    ∧ isInPenaltyPeriod 22 29 = false
    ∧ isInPenaltyPeriod 5 31 = false := by
  refine ⟨fun hour minute => ?_, by decide, by decide, by decide, by decide⟩
  simp [isInPenaltyPeriod]

/-- C9: addPenalty re-checks its guards itself: when no participant is
resolved or the penalty window is closed it issues no store query, inserts
nothing and updates nothing — the store is returned untouched with zero
reads, whatever caller or schedule invoked it. -/
theorem addPenalty_guard_spec (cu : Option User) (mounted : Bool)
    (hour minute today now : Nat) (sched : APSched) (s : Store)
    (h : cu = none ∨ isInPenaltyPeriod hour minute = false) :
    addPenaltyRes cu mounted hour minute today now sched s =
      ⟨s, 0, false, false⟩ := by
  rcases h with h | h
  · subst h; rfl
  · cases cu with
    | none => rfl
    | some u => simp [addPenaltyRes, addPenaltyTS, h]

theorem addPenalty_guard_spec_witness :
    ((some ⟨1, "DeviceA", 2, true, 0, 0⟩ : Option User) = none ∨
        isInPenaltyPeriod 12 0 = false)
    ∧ addPenaltyRes (some ⟨1, "DeviceA", 2, true, 0, 0⟩) true 12 0 100 500
        noAPErr ⟨[⟨1, "DeviceA", 2, true, 0, 0⟩], [], [], 5, 10⟩ =
      ⟨⟨[⟨1, "DeviceA", 2, true, 0, 0⟩], [], [], 5, 10⟩, 0, false, false⟩ :=
  ⟨Or.inr (by decide),
   addPenalty_guard_spec (some ⟨1, "DeviceA", 2, true, 0, 0⟩) true 12 0 100 500
     noAPErr ⟨[⟨1, "DeviceA", 2, true, 0, 0⟩], [], [], 5, 10⟩
     (Or.inr (by decide))⟩

/-- C8: neither a probe tick (pingServer) nor penalty application
(addPenalty) ever ends in an uncaught exception: for every participant,
mount state, clock and every combination of injected store failures, the
whole-function outcome is a normal return, and an exception raised inside
either try block is converted to a logged event by the catch block. -/
theorem tick_never_throws :
    (∀ (cu : Option User) (mounted : Bool) (hour minute today now : Nat)
        (sched : APSched) (s : Store),
      (addPenaltyTS cu mounted hour minute today now sched s).isThrown = false)
    ∧ (∀ (cu : Option User) (mounted : Bool)
        (lastPing hour minute today now : Nat) (sched : ProbeSched)
        (s : Store),
      (pingServerTS cu mounted lastPing hour minute today now sched
        s).isThrown = false)
    ∧ (∀ (u : User) (hour minute today now : Nat) (sched : APSched)
        (s : Store),
      isInPenaltyPeriod hour minute = true →
      (addPenaltyTry u today now sched s).isThrown = true →
      (addPenaltyRes (some u) true hour minute today now sched s).logged =
        true)
    ∧ (∀ (u : User) (lastPing hour minute today now : Nat)
        (sched : ProbeSched) (s : Store),
      15000 ≤ now - lastPing →
      (pingTry u hour minute today now sched s).isThrown = true →
      (pingServerRes (some u) true lastPing hour minute today now sched
        s).logged = true) := by
  refine ⟨?_, ?_, ?_, ?_⟩
  · intro cu mounted hour minute today now sched s
    cases cu with
    | none => rfl
    | some u =>
      simp only [addPenaltyTS]
      split
      · rfl
      · rcases h : addPenaltyTry u today now sched s with ⟨s1, cb⟩ | ⟨code, s1⟩ <;>
          simp [h, TS.isThrown]
  · intro cu mounted lastPing hour minute today now sched s
    cases cu with
    | none => rfl
    | some u =>
      simp only [pingServerTS]
      split
      · rfl
      · split
        · rfl
        · rcases h : pingTry u hour minute today now sched s with ⟨s1, cb⟩ | ⟨code, s1⟩ <;>
            simp [h, TS.isThrown]
  · intro u hour minute today now sched s hwin hthrow
    rcases h : addPenaltyTry u today now sched s with ⟨s1, cb⟩ | ⟨code, s1⟩
    · rw [h] at hthrow
      exact absurd hthrow (by simp [TS.isThrown])
    · simp [addPenaltyRes, addPenaltyTS, hwin, h]
  · intro u lastPing hour minute today now sched s hdeb hthrow
    have hnd : ¬(now - lastPing < 15000) := Nat.not_lt.mpr hdeb
    rcases h : pingTry u hour minute today now sched s with ⟨s1, cb⟩ | ⟨code, s1⟩
    · rw [h] at hthrow
      exact absurd hthrow (by simp [TS.isThrown])
    · simp [pingServerRes, pingServerTS, hnd, h]

theorem tick_never_throws_witness :
    (isInPenaltyPeriod 23 0 = true
      ∧ (addPenaltyTry ⟨1, "DeviceA", 2, true, 0, 0⟩ 100 500
          ⟨some "NETERR", none, none⟩
          ⟨[⟨1, "DeviceA", 2, true, 0, 0⟩], [], [], 5, 10⟩).isThrown = true
      ∧ 15000 ≤ 20000 - 0
      ∧ (pingTry ⟨1, "DeviceA", 2, true, 0, 0⟩ 23 0 100 20000
          ⟨some "NETERR", true, true, none, 50, none, none, noAPErr⟩
          ⟨[⟨1, "DeviceA", 2, true, 0, 0⟩], [], [], 5, 10⟩).isThrown = true)
    ∧ (addPenaltyRes (some ⟨1, "DeviceA", 2, true, 0, 0⟩) true 23 0 100 500
        ⟨some "NETERR", none, none⟩
        ⟨[⟨1, "DeviceA", 2, true, 0, 0⟩], [], [], 5, 10⟩).logged = true
    ∧ (pingServerRes (some ⟨1, "DeviceA", 2, true, 0, 0⟩) true 0 23 0 100
        20000 ⟨some "NETERR", true, true, none, 50, none, none, noAPErr⟩
        ⟨[⟨1, "DeviceA", 2, true, 0, 0⟩], [], [], 5, 10⟩).logged = true :=
  ⟨⟨by decide, by decide, by decide, by decide⟩,
   tick_never_throws.2.2.1 ⟨1, "DeviceA", 2, true, 0, 0⟩ 23 0 100 500
     ⟨some "NETERR", none, none⟩
     ⟨[⟨1, "DeviceA", 2, true, 0, 0⟩], [], [], 5, 10⟩ (by decide) (by decide),
   tick_never_throws.2.2.2 ⟨1, "DeviceA", 2, true, 0, 0⟩ 0 23 0 100 20000
     ⟨some "NETERR", true, true, none, 50, none, none, noAPErr⟩
     ⟨[⟨1, "DeviceA", 2, true, 0, 0⟩], [], [], 5, 10⟩ (by decide) (by decide)⟩

/-- Looking up a key in a cache from which that key was just filtered out
misses. -/
theorem cacheLookup_filter_self {α : Type} (c : Cache α) (k : String) :
    cacheLookup (List.filter (fun e => !(e.1 == k)) c) k = none := by
  have hnone : List.find? (fun e => e.1 == k)
      (List.filter (fun e => !(e.1 == k)) c) = none := by
    rw [List.find?_eq_none]
    intro x hx
    have hmem := List.mem_filter.mp hx
    simpa using hmem.2
  unfold cacheLookup
  rw [hnone]

/-- C4: set-then-get immediately returns the value; a get strictly after
the ttl has elapsed misses and evicts the entry; a later set on the same
key unconditionally overwrites value and ttl with a fresh timestamp. -/
theorem cache_ttl_spec {α : Type} (k : String) (v : α) (t : Nat)
    (c : Cache α) (now : Nat) :
    cacheGet now k (cacheSet now k v t c) =
      (some v, cacheSet now k v t c)
    ∧ (∀ later : Nat, t < later - now →
        (cacheGet later k (cacheSet now k v t c)).1 = none
        ∧ cacheLookup (cacheGet later k (cacheSet now k v t c)).2 k = none)
    ∧ (∀ (v' : α) (t' now2 : Nat),
        cacheLookup (cacheSet now2 k v' t' (cacheSet now k v t c)) k =
          some ⟨v', now2, t'⟩) := by
  refine ⟨?_, fun later hlater => ?_, fun v' t' now2 => ?_⟩
  · simp [cacheGet, cacheSet, cacheLookup, List.find?, Nat.sub_self]
  · have hget : cacheGet later k (cacheSet now k v t c) =
        (none, List.filter (fun e => !(e.1 == k)) (cacheSet now k v t c)) := by
      simp [cacheGet, cacheSet, cacheLookup, List.find?, hlater]
    refine ⟨by rw [hget], ?_⟩
    rw [hget]
    exact cacheLookup_filter_self _ k
  · simp [cacheSet, cacheLookup, List.find?]

theorem cache_ttl_spec_witness :
    ((2 : Nat) < 1003 - 1000)
    ∧ (cacheGet 1000 "k" (cacheSet 1000 "k" (7 : Nat) 2 []) =
        (some 7, cacheSet 1000 "k" 7 2 [])
      ∧ (∀ later : Nat, 2 < later - 1000 →
          (cacheGet later "k" (cacheSet 1000 "k" (7 : Nat) 2 [])).1 = none
          ∧ cacheLookup (cacheGet later "k"
              (cacheSet 1000 "k" (7 : Nat) 2 [])).2 "k" = none)
      ∧ (∀ (v' : Nat) (t' now2 : Nat),
          cacheLookup (cacheSet now2 "k" v' t'
            (cacheSet 1000 "k" (7 : Nat) 2 [])) "k" = some ⟨v', now2, t'⟩)) :=
  ⟨by decide, cache_ttl_spec "k" 7 2 [] 1000⟩

/-- The store component of a try-block outcome. -/
def tryStore : TS Store (Store × Bool) → Store
  | .ret a => a.1
  | .thrown _ s1 => s1

/-- The store the addPenalty try block leaves behind is one of: untouched,
after the penalty insert, or after insert plus counter write. -/
theorem addPenaltyTry_store_cases (u : User) (today now : Nat)
    (sched : APSched) (s : Store) :
    tryStore (addPenaltyTry u today now sched s) = s ∨
    tryStore (addPenaltyTry u today now sched s) =
      insertPenalty u.id today now s ∨
    tryStore (addPenaltyTry u today now sched s) =
      setUserCount u.id (u.penalty_count + 1)
        (insertPenalty u.id today now s) := by
  unfold addPenaltyTry
  dsimp only
  split
  · exact Or.inl rfl
  · split
    · exact Or.inl rfl
    · split
      · exact Or.inl rfl
      · split
        · exact Or.inr (Or.inl rfl)
        · exact Or.inr (Or.inr rfl)

/-- The store an addPenalty call leaves behind is one of: untouched, after
the penalty insert, or after insert plus counter write. -/
theorem addPenaltyRes_store_cases (cu : Option User) (mounted : Bool)
    (hour minute today now : Nat) (sched : APSched) (s : Store) :
    (addPenaltyRes cu mounted hour minute today now sched s).store = s ∨
    (∃ u : User, cu = some u ∧
      ((addPenaltyRes cu mounted hour minute today now sched s).store =
          insertPenalty u.id today now s ∨
        (addPenaltyRes cu mounted hour minute today now sched s).store =
          setUserCount u.id (u.penalty_count + 1)
            (insertPenalty u.id today now s))) := by
  cases cu with
  | none => exact Or.inl rfl
  | some u =>
    have h := addPenaltyTry_store_cases u today now sched s
    by_cases hg : (!(isInPenaltyPeriod hour minute) || !mounted) = true
    · left
      simp [addPenaltyRes, addPenaltyTS, hg]
    · rcases htry : addPenaltyTry u today now sched s with ⟨s1, cb⟩ | ⟨code, s1⟩
      · rw [htry] at h
        simp only [tryStore] at h
        have hstore :
            (addPenaltyRes (some u) mounted hour minute today now sched
              s).store = s1 := by
          simp [addPenaltyRes, addPenaltyTS, htry, hg]
        rw [hstore]
        rcases h with h | h | h
        · exact Or.inl h
        · exact Or.inr ⟨u, rfl, Or.inl h⟩
        · exact Or.inr ⟨u, rfl, Or.inr h⟩
      · rw [htry] at h
        simp only [tryStore] at h
        have hstore :
            (addPenaltyRes (some u) mounted hour minute today now sched
              s).store = s1 := by
          simp [addPenaltyRes, addPenaltyTS, htry, hg]
        rw [hstore]
        rcases h with h | h | h
        · exact Or.inl h
        · exact Or.inr ⟨u, rfl, Or.inl h⟩
        · exact Or.inr ⟨u, rfl, Or.inr h⟩

/-- addPenalty never writes the activity table. -/
theorem addPenaltyRes_pings (cu : Option User) (mounted : Bool)
    (hour minute today now : Nat) (sched : APSched) (s : Store) :
    (addPenaltyRes cu mounted hour minute today now sched s).store.pings =
      s.pings := by
  rcases addPenaltyRes_store_cases cu mounted hour minute today now sched s with
    h | ⟨u, _, h | h⟩ <;> rw [h] <;> simp [insertPenalty, setUserCount]

/-- addPenalty changes at most the penalty counter of user rows: identity,
online flag and last-seen survive it. -/
theorem addPenaltyRes_users_frame (cu : Option User) (mounted : Bool)
    (hour minute today now : Nat) (sched : APSched) (s : Store) :
    ∀ w ∈ (addPenaltyRes cu mounted hour minute today now sched s).store.users,
      ∃ w0 ∈ s.users, w.id = w0.id ∧ w.is_online = w0.is_online ∧
        w.last_seen = w0.last_seen := by
  rcases addPenaltyRes_store_cases cu mounted hour minute today now sched s with
    h | ⟨u, _, h | h⟩ <;> rw [h]
  · exact fun w hw => ⟨w, hw, rfl, rfl, rfl⟩
  · simpa [insertPenalty] using fun w hw => ⟨w, hw, rfl, rfl, rfl⟩
  · intro w hw
    simp only [setUserCount, insertPenalty] at hw
    obtain ⟨w0, hw0, rfl⟩ := List.mem_map.mp hw
    by_cases h0 : (w0.id == u.id) = true <;>
      simp [h0] <;> exact ⟨w0, hw0, rfl, rfl, rfl⟩

/-- C6: when device reachability fails, the probe tick writes only
online=false and last-seen=now on the participant row and terminates: the
activity and penalty tables are untouched, whatever the wall-clock time. -/
theorem pingServer_unreachable_spec (u : User)
    (lastPing hour minute today now : Nat) (sched : ProbeSched) (s : Store)
    (hnet : sched.netThrow = none)
    (hconn : (sched.isConnected && sched.isInternetReachable) = false)
    (hupd : sched.statusErr = none)
    (hdeb : 15000 ≤ now - lastPing) :
    pingServerRes (some u) true lastPing hour minute today now sched s =
      ⟨{ s with users := List.map (fun w => if w.id == u.id then
            { w with is_online := false, last_seen := now } else w) s.users },
        now, false, false⟩ := by
  have hnd : ¬(now - lastPing < 15000) := Nat.not_lt.mpr hdeb
  simp [pingServerRes, pingServerTS, hnd, pingTry, hnet, hconn,
    updateStatus, hupd]

theorem pingServer_unreachable_spec_witness :
    ((⟨none, false, true, none, 50, none, none, noAPErr⟩ : ProbeSched).netThrow = none
      ∧ ((⟨none, false, true, none, 50, none, none, noAPErr⟩ : ProbeSched).isConnected
          && (⟨none, false, true, none, 50, none, none, noAPErr⟩ : ProbeSched).isInternetReachable) = false
      ∧ (⟨none, false, true, none, 50, none, none, noAPErr⟩ : ProbeSched).statusErr = none
      ∧ 15000 ≤ 20000 - 0)
    ∧ pingServerRes (some ⟨1, "DeviceA", 2, true, 0, 0⟩) true 0 5 29 100 20000
        ⟨none, false, true, none, 50, none, none, noAPErr⟩
        ⟨[⟨1, "DeviceA", 2, true, 0, 0⟩], [], [], 5, 10⟩ =
      ⟨{ (⟨[⟨1, "DeviceA", 2, true, 0, 0⟩], [], [], 5, 10⟩ : Store) with
          users := List.map (fun w => if w.id == (1 : Nat) then
              { w with is_online := false, last_seen := 20000 } else w)
            [⟨1, "DeviceA", 2, true, 0, 0⟩] },
        20000, false, false⟩ :=
  ⟨⟨by decide, by decide, by decide, by decide⟩,
   pingServer_unreachable_spec ⟨1, "DeviceA", 2, true, 0, 0⟩ 0 5 29 100 20000
     ⟨none, false, true, none, 50, none, none, noAPErr⟩
     ⟨[⟨1, "DeviceA", 2, true, 0, 0⟩], [], [], 5, 10⟩
     (by decide) (by decide) (by decide) (by decide)⟩

/-- Unfolding of a reachable, non-debounced probe tick. -/
theorem pingServer_reachable_run (u : User)
    (lastPing hour minute today now : Nat) (sched : ProbeSched) (s : Store)
    (hnet : sched.netThrow = none)
    (hconn : (sched.isConnected && sched.isInternetReachable) = true)
    (hdeb : 15000 ≤ now - lastPing) :
    pingServerRes (some u) true lastPing hour minute today now sched s =
      (let hasError := ((selectUserById u.id sched.readErr s).error).isSome
       let s1 := if hasError || decide (1000 < sched.responseTime) then
           insertPing u.id now sched.responseTime (!hasError)
             sched.pingInsertErr s
         else s
       let s2 := updateStatus u.id (!hasError) now sched.statusErr s1
       if !hasError && isInPenaltyPeriod hour minute then
         let ap := addPenaltyRes (some u) true hour minute today now sched.ap s2
         ⟨ap.store, now, false, ap.callback⟩
       else ⟨s2, now, false, false⟩) := by
  have hnd : ¬(now - lastPing < 15000) := Nat.not_lt.mpr hdeb
  by_cases hpen : (selectUserById u.id sched.readErr s).error = none
      ∧ isInPenaltyPeriod hour minute = true
  · simp [pingServerRes, pingServerTS, hnd, pingTry, hnet, hconn, hpen]
  · simp [pingServerRes, pingServerTS, hnd, pingTry, hnet, hconn, hpen]

/-- C7: on a reachable probe tick an ActivityPing is appended exactly when
the existence read failed or the latency exceeds 1000ms; a tick with a
successful read and latency ≤ 1000ms writes no ActivityPing and still sets
the participant online with a fresh last-seen. -/
theorem pingServer_activity_spec (u : User)
    (lastPing hour minute today now : Nat) (sched : ProbeSched) (s : Store)
    (hnet : sched.netThrow = none)
    (hconn : (sched.isConnected && sched.isInternetReachable) = true)
    (hins : sched.pingInsertErr = none)
    (hupd : sched.statusErr = none)
    (hdeb : 15000 ≤ now - lastPing) :
    ((pingServerRes (some u) true lastPing hour minute today now sched
        s).store.pings =
      if ((selectUserById u.id sched.readErr s).error).isSome
          || decide (1000 < sched.responseTime) then
        s.pings ++ [⟨u.id, now, sched.responseTime,
          !((selectUserById u.id sched.readErr s).error).isSome⟩]
      else s.pings)
    ∧ (((selectUserById u.id sched.readErr s).error).isSome = false →
        sched.responseTime ≤ 1000 →
        (pingServerRes (some u) true lastPing hour minute today now sched
            s).store.pings = s.pings
        ∧ ∀ w ∈ (pingServerRes (some u) true lastPing hour minute today now
            sched s).store.users,
            w.id = u.id → w.is_online = true ∧ w.last_seen = now) := by
  have hrun := pingServer_reachable_run u lastPing hour minute today now
    sched s hnet hconn hdeb
  have h1 : (pingServerRes (some u) true lastPing hour minute today now sched
      s).store.pings =
      if ((selectUserById u.id sched.readErr s).error).isSome
          || decide (1000 < sched.responseTime) then
        s.pings ++ [⟨u.id, now, sched.responseTime,
          !((selectUserById u.id sched.readErr s).error).isSome⟩]
      else s.pings := by
    rw [hrun]
    by_cases hpen : (!((selectUserById u.id sched.readErr s).error).isSome
        && isInPenaltyPeriod hour minute) = true
    · simp only [hpen, if_true]
      by_cases hlog : (((selectUserById u.id sched.readErr s).error).isSome
          || decide (1000 < sched.responseTime)) = true
      · simp only [hlog, if_true]
        rw [addPenaltyRes_pings]
        simp [updateStatus, hupd, insertPing, hins]
      · simp only [hlog]
        rw [addPenaltyRes_pings]
        simp only [Bool.not_eq_true] at hlog
        simp [updateStatus, hupd, hlog]
    · simp only [hpen]
      by_cases hlog : (((selectUserById u.id sched.readErr s).error).isSome
          || decide (1000 < sched.responseTime)) = true
      · simp [hlog, updateStatus, hupd, insertPing, hins]
      · simp only [Bool.not_eq_true] at hlog
        simp [hlog, updateStatus, hupd]
  refine ⟨h1, fun herr hrt => ?_⟩
  have hnlt : ¬(1000 < sched.responseTime) := Nat.not_lt.mpr hrt
  have hc1 : (((selectUserById u.id sched.readErr s).error).isSome
      || decide (1000 < sched.responseTime)) = false := by
    rw [herr]
    simp [hnlt]
  constructor
  · rw [h1, hc1]
    simp
  · have husers : ∀ w ∈ (updateStatus u.id true now sched.statusErr s).users,
        w.id = u.id → w.is_online = true ∧ w.last_seen = now := by
      intro w hw hid
      rw [hupd] at hw
      simp only [updateStatus] at hw
      obtain ⟨w0, hw0, rfl⟩ := List.mem_map.mp hw
      by_cases h0 : (w0.id == u.id) = true
      · simp [h0]
      · exfalso
        rw [if_neg h0] at hid
        exact h0 (by simpa using hid)
    rw [hrun]
    by_cases hpen : isInPenaltyPeriod hour minute = true
    · simp only [herr, hpen, Bool.not_false, Bool.false_or, Bool.true_and,
        decide_eq_false hnlt, Bool.false_eq_true, if_false, if_true]
      intro w hw hwid
      obtain ⟨w0, hw0, hid, hon, hls⟩ :=
        addPenaltyRes_users_frame (some u) true hour minute today now sched.ap
          (updateStatus u.id true now sched.statusErr s) w hw
      obtain ⟨ho, hl⟩ := husers w0 hw0 (hid ▸ hwid)
      exact ⟨hon.trans ho, hls.trans hl⟩
    · have hwf : isInPenaltyPeriod hour minute = false := by simpa using hpen
      simp only [herr, hwf, Bool.not_false, Bool.false_or, Bool.true_and,
        decide_eq_false hnlt, Bool.false_eq_true, if_false]
      exact husers

theorem pingServer_activity_spec_witness :
    ((⟨none, true, true, none, 50, none, none, noAPErr⟩ : ProbeSched).netThrow = none
      ∧ ((⟨none, true, true, none, 50, none, none, noAPErr⟩ : ProbeSched).isConnected
          && (⟨none, true, true, none, 50, none, none, noAPErr⟩ : ProbeSched).isInternetReachable) = true
      ∧ (⟨none, true, true, none, 50, none, none, noAPErr⟩ : ProbeSched).pingInsertErr = none
      ∧ (⟨none, true, true, none, 50, none, none, noAPErr⟩ : ProbeSched).statusErr = none
      ∧ 15000 ≤ 20000 - 0)
    ∧ (((pingServerRes (some ⟨1, "DeviceA", 2, true, 0, 0⟩) true 0 22 31 100 20000
          ⟨none, true, true, none, 50, none, none, noAPErr⟩
          ⟨[⟨1, "DeviceA", 2, true, 0, 0⟩], [], [], 5, 10⟩).store.pings =
        if ((selectUserById 1 none
              ⟨[⟨1, "DeviceA", 2, true, 0, 0⟩], [], [], 5, 10⟩).error).isSome
            || decide (1000 < 50) then
          ([] : List Ping) ++ [⟨1, 20000, 50,
            !((selectUserById 1 none
              ⟨[⟨1, "DeviceA", 2, true, 0, 0⟩], [], [], 5, 10⟩).error).isSome⟩]
        else [])
      ∧ (((selectUserById 1 none
            ⟨[⟨1, "DeviceA", 2, true, 0, 0⟩], [], [], 5, 10⟩).error).isSome = false →
          (50 : Nat) ≤ 1000 →
          (pingServerRes (some ⟨1, "DeviceA", 2, true, 0, 0⟩) true 0 22 31 100 20000
            ⟨none, true, true, none, 50, none, none, noAPErr⟩
            ⟨[⟨1, "DeviceA", 2, true, 0, 0⟩], [], [], 5, 10⟩).store.pings = []
          ∧ ∀ w ∈ (pingServerRes (some ⟨1, "DeviceA", 2, true, 0, 0⟩) true 0 22 31 100
              20000 ⟨none, true, true, none, 50, none, none, noAPErr⟩
              ⟨[⟨1, "DeviceA", 2, true, 0, 0⟩], [], [], 5, 10⟩).store.users,
              w.id = 1 → w.is_online = true ∧ w.last_seen = 20000)) :=
  ⟨⟨by decide, by decide, by decide, by decide, by decide⟩,
   pingServer_activity_spec ⟨1, "DeviceA", 2, true, 0, 0⟩ 0 22 31 100 20000
     ⟨none, true, true, none, 50, none, none, noAPErr⟩
     ⟨[⟨1, "DeviceA", 2, true, 0, 0⟩], [], [], 5, 10⟩
     (by decide) (by decide) (by decide) (by decide) (by decide)⟩

/-- order-descending/limit-1 returns a row from every nonempty list. -/
theorem pickLatest_eq_none (l : List Penalty) (h : pickLatest l = none) :
    l = [] := by
  cases l with
  | nil => rfl
  | cons a l2 =>
    exfalso
    cases h2 : pickLatest l2 with
    | none =>
      rw [show pickLatest (a :: l2) = some a from by
        simp [pickLatest, h2]] at h
      exact Option.noConfusion h
    | some r =>
      by_cases hc : a.created_at < r.created_at
      · rw [show pickLatest (a :: l2) = some r from by
          simp [pickLatest, h2, hc]] at h
        exact Option.noConfusion h
      · rw [show pickLatest (a :: l2) = some a from by
          simp [pickLatest, h2, hc]] at h
        exact Option.noConfusion h

/-- The row picked by order-descending/limit-1 belongs to the row list. -/
theorem pickLatest_mem (l : List Penalty) (p : Penalty)
    (h : pickLatest l = some p) : p ∈ l := by
  induction l with
  | nil => exact Option.noConfusion h
  | cons q rest ih =>
    cases hrest : pickLatest rest with
    | none =>
      rw [show pickLatest (q :: rest) = some q from by
        simp [pickLatest, hrest]] at h
      obtain rfl : q = p := Option.some.inj h
      exact List.mem_cons_self _ _
    | some r =>
      by_cases hc : q.created_at < r.created_at
      · rw [show pickLatest (q :: rest) = some r from by
          simp [pickLatest, hrest, hc]] at h
        obtain rfl : r = p := Option.some.inj h
        exact List.mem_cons_of_mem q (ih hrest)
      · rw [show pickLatest (q :: rest) = some q from by
          simp [pickLatest, hrest, hc]] at h
        obtain rfl : q = p := Option.some.inj h
        exact List.mem_cons_self _ _

/-- The row picked by order-descending/limit-1 has the greatest creation
timestamp of the list. -/
theorem pickLatest_le (l : List Penalty) (p : Penalty)
    (h : pickLatest l = some p) :
    ∀ q ∈ l, q.created_at ≤ p.created_at := by
  induction l generalizing p with
  | nil => exact Option.noConfusion h
  | cons q0 rest ih =>
    cases hrest : pickLatest rest with
    | none =>
      obtain rfl : rest = [] := pickLatest_eq_none rest hrest
      rw [show pickLatest [q0] = some q0 from by simp [pickLatest]] at h
      have heq : q0 = p := Option.some.inj h
      subst heq
      intro x hx
      rcases List.mem_cons.mp hx with rfl | hx'
      · exact Nat.le_refl _
      · cases hx'
    | some r =>
      by_cases hc : q0.created_at < r.created_at
      · rw [show pickLatest (q0 :: rest) = some r from by
          simp [pickLatest, hrest, hc]] at h
        have heq : r = p := Option.some.inj h
        subst heq
        intro x hx
        rcases List.mem_cons.mp hx with rfl | hx'
        · exact Nat.le_of_lt hc
        · exact ih r hrest x hx'
      · rw [show pickLatest (q0 :: rest) = some q0 from by
          simp [pickLatest, hrest, hc]] at h
        have heq : q0 = p := Option.some.inj h
        subst heq
        intro x hx
        rcases List.mem_cons.mp hx with rfl | hx'
        · exact Nat.le_refl _
        · exact Nat.le_trans (ih r hrest x hx') (Nat.not_lt.mp hc)

/-- Mapping a function that fixes every member is the identity. -/
theorem map_id_of_mem {α : Type} (l : List α) (f : α → α)
    (h : ∀ x ∈ l, f x = x) : List.map f l = l := by
  induction l with
  | nil => rfl
  | cons a rest ih =>
    rw [List.map_cons, h a (List.mem_cons_self a rest),
      ih (fun x hx => h x (List.mem_cons_of_mem a hx))]

/-- Resolving the selected row removes exactly one row from the unreduced
filter, provided row identifiers are unique. -/
theorem filter_resolve_length (uid cid now : Nat) (p : Penalty)
    (pens : List Penalty) (hmem : p ∈ pens)
    (hact : unreducedFor uid p = true)
    (hnodup : (List.map Penalty.id pens).Nodup) :
    (List.filter (unreducedFor uid)
        (List.map (fun q => if q.id == p.id then
            { q with removed_by := some cid, removed_at := some now }
          else q) pens)).length + 1 =
      (List.filter (unreducedFor uid) pens).length := by
  induction pens with
  | nil => cases hmem
  | cons a rest ih =>
    rw [List.map_cons, List.nodup_cons] at hnodup
    rcases List.mem_cons.mp hmem with heq | hmem'
    · subst heq
      have hmapid : List.map (fun q => if q.id == p.id then
          { q with removed_by := some cid, removed_at := some now }
        else q) rest = rest := by
        apply map_id_of_mem
        intro x hx
        have hxne : (x.id == p.id) = false := by
          apply beq_eq_false_iff_ne.mpr
          intro hxeq
          apply hnodup.1
          rw [← hxeq]
          exact List.mem_map_of_mem Penalty.id hx
        simp [hxne]
      rw [List.map_cons, hmapid]
      have hhead : (if p.id == p.id then
          { p with removed_by := some cid, removed_at := some now }
        else p) = { p with removed_by := some cid, removed_at := some now } := by
        simp
      have hres : ¬unreducedFor uid
          { p with removed_by := some cid, removed_at := some now } = true := by
        simp [unreducedFor]
      rw [hhead, List.filter_cons, List.filter_cons, if_neg hres, if_pos hact]
      simp
    · have hane : (a.id == p.id) = false := by
        apply beq_eq_false_iff_ne.mpr
        intro haeq
        apply hnodup.1
        rw [haeq]
        exact List.mem_map_of_mem Penalty.id hmem'
      rw [List.map_cons]
      have hhead : (if a.id == p.id then
          { a with removed_by := some cid, removed_at := some now }
        else a) = a := by
        simp [hane]
      rw [hhead, List.filter_cons, List.filter_cons]
      by_cases ha : unreducedFor uid a = true
      · rw [if_pos ha, if_pos ha]
        have hih := ih hmem' hnodup.2
        simp only [List.length_cons]
        omega
      · rw [if_neg ha, if_neg ha]
        exact ih hmem' hnodup.2

/-- C3: reducePenalty on a user whose counter is zero returns before any
store query and selects no record; on a user with counter k > 0 (and
distinct row ids) it selects the most recently created unreduced record,
marks exactly that one resolved, and writes k-1 (never negative) into the
counter. -/
theorem reducePenalty_spec (c target : User) (now : Nat) (s : Store) :
    (∀ sched : RPSched, target.penalty_count = 0 →
      reducePenalty (some c) target now sched s = ⟨s, none, 0, false⟩)
    ∧ (∀ p : Penalty, 0 < target.penalty_count →
        (List.map Penalty.id s.penalties).Nodup →
        pickLatest (List.filter (unreducedFor target.id) s.penalties) =
          some p →
        (reducePenalty (some c) target now noRPErr s).selected = some p
        ∧ p ∈ List.filter (unreducedFor target.id) s.penalties
        ∧ (∀ q ∈ List.filter (unreducedFor target.id) s.penalties,
            q.created_at ≤ p.created_at)
        ∧ { p with removed_by := some c.id, removed_at := some now } ∈
            (reducePenalty (some c) target now noRPErr s).store.penalties
        ∧ (List.filter (unreducedFor target.id)
            (reducePenalty (some c) target now noRPErr s).store.penalties).length
            + 1 =
          (List.filter (unreducedFor target.id) s.penalties).length
        ∧ (∀ w ∈ (reducePenalty (some c) target now noRPErr s).store.users,
            w.id = target.id →
              w.penalty_count = target.penalty_count - 1
              ∧ 0 ≤ w.penalty_count)) := by
  constructor
  · intro sched h0
    simp [reducePenalty, h0]
  · intro p hk hnodup hpick
    have h0 : (target.penalty_count == 0) = false := by
      have : target.penalty_count ≠ 0 := by omega
      simpa using this
    have hmemf : p ∈ List.filter (unreducedFor target.id) s.penalties :=
      pickLatest_mem _ p hpick
    have hmem : p ∈ s.penalties := (List.mem_filter.mp hmemf).1
    have hact : unreducedFor target.id p = true :=
      (List.mem_filter.mp hmemf).2
    have hred : reducePenalty (some c) target now noRPErr s =
        ⟨{ s with
            penalties := List.map (fun q => if q.id == p.id then
                { q with removed_by := some c.id, removed_at := some now }
              else q) s.penalties,
            users := List.map (fun w => if w.id == target.id then
                { w with
                  penalty_count := max 0 (target.penalty_count - 1),
                  updated_at := now }
              else w) s.users },
          some p, 1, false⟩ := by
      simp [reducePenalty, h0, reduceTry, noRPErr, hpick]
    refine ⟨by rw [hred], hmemf, pickLatest_le _ p hpick, ?_, ?_, ?_⟩
    · rw [hred]
      have : (fun q => if q.id == p.id then
          { q with removed_by := some c.id, removed_at := some now }
        else q) p =
          { p with removed_by := some c.id, removed_at := some now } := by
        simp
      exact this ▸ List.mem_map_of_mem _ hmem
    · rw [hred]
      have huf : unreducedFor target.id p = true := hact
      exact filter_resolve_length target.id c.id now p s.penalties hmem huf
        hnodup
    · rw [hred]
      intro w hw hid
      obtain ⟨w0, hw0, rfl⟩ := List.mem_map.mp hw
      by_cases hw0id : (w0.id == target.id) = true
      · rw [if_pos hw0id]
        have hmax : max 0 (target.penalty_count - 1) =
            target.penalty_count - 1 :=
          max_eq_right (by omega)
        constructor
        · simpa using hmax
        · simp only [hmax]
          omega
      · exfalso
        rw [if_neg hw0id] at hid
        exact hw0id (by simpa using hid)

theorem reducePenalty_spec_witness :
    ((0 : Int) < 2
      ∧ (List.map Penalty.id
          [(⟨20, 1, 90, none, none, 5⟩ : Penalty),
            ⟨21, 1, 91, none, none, 9⟩]).Nodup
      ∧ pickLatest (List.filter (unreducedFor 1)
          [(⟨20, 1, 90, none, none, 5⟩ : Penalty),
            ⟨21, 1, 91, none, none, 9⟩]) = some ⟨21, 1, 91, none, none, 9⟩)
    ∧ ((reducePenalty (some ⟨1, "DeviceA", 2, true, 0, 0⟩)
          ⟨1, "DeviceA", 2, true, 0, 0⟩ 777 noRPErr
          ⟨[⟨1, "DeviceA", 2, true, 0, 0⟩],
            [⟨20, 1, 90, none, none, 5⟩, ⟨21, 1, 91, none, none, 9⟩],
            [], 5, 30⟩).selected = some ⟨21, 1, 91, none, none, 9⟩
      ∧ (⟨21, 1, 91, none, none, 9⟩ : Penalty) ∈ List.filter (unreducedFor 1)
          [(⟨20, 1, 90, none, none, 5⟩ : Penalty), ⟨21, 1, 91, none, none, 9⟩]
      ∧ (∀ q ∈ List.filter (unreducedFor 1)
            [(⟨20, 1, 90, none, none, 5⟩ : Penalty),
              ⟨21, 1, 91, none, none, 9⟩],
          q.created_at ≤ 9)
      ∧ (⟨21, 1, 91, some 1, some 777, 9⟩ : Penalty) ∈
          (reducePenalty (some ⟨1, "DeviceA", 2, true, 0, 0⟩)
            ⟨1, "DeviceA", 2, true, 0, 0⟩ 777 noRPErr
            ⟨[⟨1, "DeviceA", 2, true, 0, 0⟩],
              [⟨20, 1, 90, none, none, 5⟩, ⟨21, 1, 91, none, none, 9⟩],
              [], 5, 30⟩).store.penalties
      ∧ (List.filter (unreducedFor 1)
          (reducePenalty (some ⟨1, "DeviceA", 2, true, 0, 0⟩)
            ⟨1, "DeviceA", 2, true, 0, 0⟩ 777 noRPErr
            ⟨[⟨1, "DeviceA", 2, true, 0, 0⟩],
              [⟨20, 1, 90, none, none, 5⟩, ⟨21, 1, 91, none, none, 9⟩],
              [], 5, 30⟩).store.penalties).length + 1 =
          (List.filter (unreducedFor 1)
            [(⟨20, 1, 90, none, none, 5⟩ : Penalty),
              ⟨21, 1, 91, none, none, 9⟩]).length
      ∧ (∀ w ∈ (reducePenalty (some ⟨1, "DeviceA", 2, true, 0, 0⟩)
            ⟨1, "DeviceA", 2, true, 0, 0⟩ 777 noRPErr
            ⟨[⟨1, "DeviceA", 2, true, 0, 0⟩],
              [⟨20, 1, 90, none, none, 5⟩, ⟨21, 1, 91, none, none, 9⟩],
              [], 5, 30⟩).store.users,
          w.id = 1 → w.penalty_count = (2 : Int) - 1 ∧ 0 ≤ w.penalty_count)) :=
  ⟨⟨by decide, by decide, by decide⟩,
   (reducePenalty_spec ⟨1, "DeviceA", 2, true, 0, 0⟩
      ⟨1, "DeviceA", 2, true, 0, 0⟩ 777
      ⟨[⟨1, "DeviceA", 2, true, 0, 0⟩],
        [⟨20, 1, 90, none, none, 5⟩, ⟨21, 1, 91, none, none, 9⟩],
        [], 5, 30⟩).2 ⟨21, 1, 91, none, none, 9⟩ (by decide) (by decide)
      (by decide)⟩

/-- C5: initializeUser for a device label with no stored Participant and no
cached entry inserts a fresh Participant (online, counter zero — the schema
default), caches it under the label's key with a two-minute ttl, and a
second call within that window returns the cached Participant with zero
store reads. -/
theorem initializeUser_spec (dn : String) (now : Nat) (c : Cache User)
    (s : Store) (prev : Option User)
    (h1 : (dn == "") = false) (h2 : (dn == "Unknown Device") = false)
    (hc : cacheLookup c ("user_" ++ dn) = none)
    (hs : List.filter (fun w => w.device_name == dn) s.users = []) :
    initializeUser dn now noInitErr c s prev =
      ⟨{ s with
          users := s.users ++ [⟨s.userSeq, dn, 0, true, now, now⟩]
          userSeq := s.userSeq + 1 },
        cacheSet now ("user_" ++ dn) ⟨s.userSeq, dn, 0, true, now, now⟩
          120000 c,
        some ⟨s.userSeq, dn, 0, true, now, now⟩, 1, false⟩
    ∧ ∀ (later : Nat) (prev2 : Option User), later - now ≤ 120000 →
        initializeUser dn later noInitErr
          (cacheSet now ("user_" ++ dn) ⟨s.userSeq, dn, 0, true, now, now⟩
            120000 c)
          { s with
            users := s.users ++ [⟨s.userSeq, dn, 0, true, now, now⟩]
            userSeq := s.userSeq + 1 } prev2 =
        ⟨{ s with
            users := s.users ++ [⟨s.userSeq, dn, 0, true, now, now⟩]
            userSeq := s.userSeq + 1 },
          cacheSet now ("user_" ++ dn) ⟨s.userSeq, dn, 0, true, now, now⟩
            120000 c,
          some ⟨s.userSeq, dn, 0, true, now, now⟩, 0, false⟩ := by
  have hg : cacheGet now ("user_" ++ dn) c = (none, c) := by
    simp [cacheGet, hc]
  constructor
  · simp [initializeUser, h1, h2, hg, initTry, noInitErr, hs, selectSingle]
  · intro later prev2 hle
    have hnexp : ¬(120000 < later - now) := Nat.not_lt.mpr hle
    have hg2 : cacheGet later ("user_" ++ dn)
        (cacheSet now ("user_" ++ dn) ⟨s.userSeq, dn, 0, true, now, now⟩
          120000 c) =
        (some ⟨s.userSeq, dn, 0, true, now, now⟩,
          cacheSet now ("user_" ++ dn) ⟨s.userSeq, dn, 0, true, now, now⟩
            120000 c) := by
      simp [cacheGet, cacheSet, cacheLookup, List.find?, hnexp]
    simp [initializeUser, h1, h2, hg2]

theorem initializeUser_spec_witness :
    ((("DeviceA" == "") = false
      ∧ ("DeviceA" == "Unknown Device") = false
      ∧ cacheLookup ([] : Cache User) ("user_" ++ "DeviceA") = none
      ∧ List.filter (fun w => w.device_name == "DeviceA")
          (⟨[], [], [], 5, 10⟩ : Store).users = []
      ∧ 60000 - 1000 ≤ 120000)
    ∧ (initializeUser "DeviceA" 1000 noInitErr [] ⟨[], [], [], 5, 10⟩ none =
        ⟨{ (⟨[], [], [], 5, 10⟩ : Store) with
            users := (⟨[], [], [], 5, 10⟩ : Store).users ++
              [⟨(⟨[], [], [], 5, 10⟩ : Store).userSeq, "DeviceA", 0, true,
                1000, 1000⟩],
            userSeq := (⟨[], [], [], 5, 10⟩ : Store).userSeq + 1 },
          cacheSet 1000 ("user_" ++ "DeviceA")
            ⟨(⟨[], [], [], 5, 10⟩ : Store).userSeq, "DeviceA", 0, true, 1000,
              1000⟩ 120000 [],
          some ⟨(⟨[], [], [], 5, 10⟩ : Store).userSeq, "DeviceA", 0, true,
            1000, 1000⟩, 1, false⟩
      ∧ initializeUser "DeviceA" 60000 noInitErr
          (cacheSet 1000 ("user_" ++ "DeviceA")
            ⟨(⟨[], [], [], 5, 10⟩ : Store).userSeq, "DeviceA", 0, true, 1000,
              1000⟩ 120000 [])
          { (⟨[], [], [], 5, 10⟩ : Store) with
            users := (⟨[], [], [], 5, 10⟩ : Store).users ++
              [⟨(⟨[], [], [], 5, 10⟩ : Store).userSeq, "DeviceA", 0, true,
                1000, 1000⟩],
            userSeq := (⟨[], [], [], 5, 10⟩ : Store).userSeq + 1 } none =
        ⟨{ (⟨[], [], [], 5, 10⟩ : Store) with
            users := (⟨[], [], [], 5, 10⟩ : Store).users ++
              [⟨(⟨[], [], [], 5, 10⟩ : Store).userSeq, "DeviceA", 0, true,
                1000, 1000⟩],
            userSeq := (⟨[], [], [], 5, 10⟩ : Store).userSeq + 1 },
          cacheSet 1000 ("user_" ++ "DeviceA")
            ⟨(⟨[], [], [], 5, 10⟩ : Store).userSeq, "DeviceA", 0, true, 1000,
              1000⟩ 120000 [],
          some ⟨(⟨[], [], [], 5, 10⟩ : Store).userSeq, "DeviceA", 0, true,
            1000, 1000⟩, 0, false⟩)) :=
  ⟨⟨by decide, by decide, by decide, by decide, by decide⟩,
   (initializeUser_spec "DeviceA" 1000 [] ⟨[], [], [], 5, 10⟩ none
      (by decide) (by decide) (by decide) (by decide)).1,
   (initializeUser_spec "DeviceA" 1000 [] ⟨[], [], [], 5, 10⟩ none
      (by decide) (by decide) (by decide) (by decide)).2 60000 none
     (by decide)⟩

end GabLira
